import Mathlib

/-!
# Verification of the essay_answers similarity core

Shallow embedding of the repository's similarity core
(`answer_service/sentence_embedding/sentence_embedding.cpp`) together with a
model, taken from the specification, of the Python answer-service pipeline
whose sources are not part of the similarity core.

Embedding vectors (`std::vector<float>`) are modelled as `List ℝ` (exact real
arithmetic in place of IEEE floats); C++ exceptions are modelled with
`Except`.
-/

/-- The two C++ exception kinds thrown by the similarity core:
`std::invalid_argument` and `std::runtime_error`, each with its message. -/
inductive CppError where
  | invalidArgument (msg : String)
  | runtimeError (msg : String)

/-- A `SentenceEmbedding` object: a sentence together with its embedding
vector (`sentence_embedding.h`). -/
structure SentenceEmbedding where
  sentence : String
  embedding : List ℝ

/-- Embeds the free function `dot_product` of `sentence_embedding.cpp`:
throws `std::invalid_argument` when the sizes differ, otherwise sums the
componentwise products. -/
def dot_product (a b : List ℝ) : Except CppError ℝ :=
  if a.length ≠ b.length then
    .error (.invalidArgument "Vectors must be of the same size for dot product.")
  else
    .ok (List.zipWith (fun x y => x * y) a b).sum

/-- The value computed by the loop of `dot_product` (defined whenever the
length check passes). -/
def dotVal (a b : List ℝ) : ℝ :=
  (List.zipWith (fun x y => x * y) a b).sum

/-- The sum of squares accumulated by the loop of `magnitude`. -/
def sumSq (v : List ℝ) : ℝ :=
  (v.map (fun x => x * x)).sum

/-- Embeds the free function `magnitude` of `sentence_embedding.cpp`:
the square root of the sum of the squared components. -/
noncomputable def magnitude (v : List ℝ) : ℝ :=
  Real.sqrt (sumSq v)

/-- Embeds `SentenceEmbedding::cosine_similarity`: first the dot product
(which may throw on a size mismatch), then the magnitudes, then the
zero-magnitude check (`std::runtime_error`), and finally the quotient. -/
noncomputable def cosine_similarity (se other : SentenceEmbedding) : Except CppError ℝ :=
  match dot_product se.embedding other.embedding with
  | .error e => .error e
  | .ok dot_prod =>
    if magnitude se.embedding = 0 ∨ magnitude other.embedding = 0 then
      .error (.runtimeError "Cannot calculate cosine similarity with zero magnitude vector.")
    else
      .ok (dot_prod / (magnitude se.embedding * magnitude other.embedding))

/-- The loop of `SentenceEmbedding::most_similar`: scans the candidates in
order carrying the running index `i`, the best index so far and the best
similarity so far, updating on a strict improvement (`similarity >
highest_similarity`); any exception from `cosine_similarity` propagates. -/
noncomputable def msLoop (se : SentenceEmbedding) :
    List SentenceEmbedding → Nat → Int → ℝ → Except CppError (Int × ℝ)
  | [], _, idx, best => .ok (idx, best)
  | e :: es, i, idx, best =>
    match cosine_similarity se e with
    | .error err => .error err
    | .ok s =>
      if best < s then msLoop se es (i + 1) (Int.ofNat i) s
      else msLoop se es (i + 1) idx best

/-- Embeds `SentenceEmbedding::most_similar`: the loop started with
`most_similar_index = -1` and `highest_similarity = -1.0`. -/
noncomputable def most_similar (se : SentenceEmbedding)
    (embeddings : List SentenceEmbedding) : Except CppError (Int × ℝ) :=
  msLoop se embeddings 0 (-1) (-1)

/-- The exact cosine-similarity value for two vectors of equal dimension and
nonzero magnitudes. -/
noncomputable def cosVal (a b : List ℝ) : ℝ :=
  dotVal a b / (magnitude a * magnitude b)

/-- The pure argmax scan underlying `most_similar`, on the list of
similarity scores: same loop as `msLoop`, without the exception plumbing. -/
noncomputable def runBest : List ℝ → Nat → Int → ℝ → Int × ℝ
  | [], _, idx, best => (idx, best)
  | s :: ss, i, idx, best =>
    if best < s then runBest ss (i + 1) (Int.ofNat i) s
    else runBest ss (i + 1) idx best

/-! ## Spec model of the answer-service pipeline

The Python sources of `TextSegmenter` / `AnswerService` are not part of the
similarity core above; the following definitions are modelled from the
specification (sections 4.1-4.3 and 7). -/

/-- Modelled from the spec: the error taxonomy of section 7 for the parts of
the pipeline outside the C++ core (`ValidationError`, `DegenerateVector`,
`EmptyCandidateSet`, plus a generic internal failure). -/
inductive AppError where
  | validation (msg : String)
  | degenerateVector
  | emptyCandidateSet
  | internal

/-- A section of the segmented essay: a heading (the empty string for the
implicit default section) and its sentences in order of appearance. -/
structure EssaySection where
  heading : String
  sentences : List String

/-- Whitespace recognised by trimming. -/
def isWhite (c : Char) : Bool :=
  c == ' ' || c == '\n' || c == '\t' || c == '\r'

/-- Split a character list at every separator recognised by `p`; the
separators are consumed. -/
def splitOnPred (p : Char → Bool) : List Char → List (List Char)
  | [] => [[]]
  | c :: cs =>
    match splitOnPred p cs with
    | [] => [[]]
    | g :: gs => if p c then [] :: g :: gs else (c :: g) :: gs

/-- Trim leading and trailing whitespace from a character list. -/
def trimChars (cs : List Char) : List Char :=
  ((cs.dropWhile isWhite).reverse.dropWhile isWhite).reverse

/-- Sentence-terminal punctuation. -/
def isStop (c : Char) : Bool :=
  c == '.' || c == '?' || c == '!'

/-- Modelled from the spec: TextSegmenter step 3 — split a body block into
sentences on `.`, `?`, `!`, trim whitespace, discard empty fragments. -/
def sentencesOf (block : List Char) : List String :=
  (((splitOnPred isStop block).map trimChars).filter (fun s => !s.isEmpty)).map
    (fun cs => String.mk cs)

/-- Modelled from the spec: TextSegmenter step 4 — a heading block starts a
new section; a body block's sentences join the most recent section, or the
implicit default section (empty heading) when no heading has been seen. The
accumulator holds the sections in reverse order. -/
def segStep (isHeading : List Char → Bool) (acc : List EssaySection)
    (block : List Char) : List EssaySection :=
  if isHeading block then ⟨String.mk block, []⟩ :: acc
  else
    match acc with
    | [] => [⟨"", sentencesOf block⟩]
    | sec :: rest => ⟨sec.heading, sec.sentences ++ sentencesOf block⟩ :: rest

/-- Modelled from the spec: `TextSegmenter.segment` — split the document
into blocks on newline boundaries, trim them, drop empty blocks, then
classify and group. The heading heuristic is a parameter, since the spec
leaves its exact threshold open. -/
def segmentEssay (isHeading : List Char → Bool) (doc : String) : List EssaySection :=
  ((((splitOnPred (fun c => c == '\n') doc.toList).map trimChars).filter
      (fun b => !b.isEmpty)).foldl (segStep isHeading) []).reverse

/-- Modelled from the spec: `SimilarityIndex.cosineSimilarity` — fails with
`DegenerateVector` on a zero-magnitude vector, otherwise the cosine value. -/
noncomputable def cosineSimilaritySpec (a b : List ℝ) : Except AppError ℝ :=
  if magnitude a = 0 ∨ magnitude b = 0 then .error .degenerateVector
  else .ok (cosVal a b)

/-- The scan of `mostSimilarSpec` after the first candidate has seeded the
running best. -/
noncomputable def msSpecLoop (q : List ℝ) :
    List (List ℝ) → Nat → Nat → ℝ → Except AppError (Nat × ℝ)
  | [], _, idx, best => .ok (idx, best)
  | c :: cs, i, idx, best =>
    match cosineSimilaritySpec q c with
    | .error e => .error e
    | .ok s =>
      if best < s then msSpecLoop q cs (i + 1) i s
      else msSpecLoop q cs (i + 1) idx best

/-- Modelled from the spec: `SimilarityIndex.mostSimilar` — fails with
`EmptyCandidateSet` on an empty candidate list; otherwise returns the first
candidate attaining the maximum cosine similarity (strict greater-than scan
in input order), seeded with the first candidate's score. -/
noncomputable def mostSimilarSpec (q : List ℝ) :
    List (List ℝ) → Except AppError (Nat × ℝ)
  | [] => .error .emptyCandidateSet
  | c :: cs =>
    match cosineSimilaritySpec q c with
    | .error e => .error e
    | .ok s => msSpecLoop q cs 1 0 s

/-- Rank a pool of sentences against a query embedding and return the
winning sentence's text. -/
noncomputable def selectFromPool (embed : String → List ℝ) (qv : List ℝ)
    (pool : List String) : Except AppError String :=
  match mostSimilarSpec qv (pool.map embed) with
  | .error e => .error e
  | .ok (j, _) =>
    match pool.get? j with
    | some s => .ok s
    | none => .error .internal

/-- Run the per-query answer selection over every query in input order,
aborting the whole batch on the first failure. -/
noncomputable def forEachQuery (f : String → Except AppError String) :
    List String → Except AppError (List String)
  | [] => .ok []
  | q :: qs =>
    match f q with
    | .error e => .error e
    | .ok a =>
      match forEachQuery f qs with
      | .error e => .error e
      | .ok as => .ok (a :: as)

/-- Modelled from the spec: the exhaustive strategy (`answers`) — validate,
segment, flatten all sections' sentences into one ordered pool (headings
excluded), rank the full pool for each query. -/
noncomputable def answersExhaustive (embed : String → List ℝ)
    (isHeading : List Char → Bool) (essay : String) (queries : List String) :
    Except AppError (List String) :=
  if trimChars essay.toList = [] then .error (.validation "EmptyEssay")
  else if queries = [] then .error (.validation "EmptyQueries")
  else
    forEachQuery
      (fun q => selectFromPool embed (embed q)
        (((segmentEssay isHeading essay).map EssaySection.sentences).flatten))
      queries

/-- One hierarchical query: rank the headings of the sections that have
sentences, pick the winning section, then rank that section's sentences. -/
noncomputable def hierAnswerOne (embed : String → List ℝ)
    (secs : List EssaySection) (q : String) : Except AppError String :=
  match mostSimilarSpec (embed q) (secs.map (fun s => embed s.heading)) with
  | .error e => .error e
  | .ok (j, _) =>
    match secs.get? j with
    | some sec => selectFromPool embed (embed q) sec.sentences
    | none => .error .internal

/-- Modelled from the spec: the hierarchical strategy
(`answers_based_on_subtitles`) — validate, segment, drop sections with no
sentences, rank section headings for each query, then rank only the winning
section's sentences. -/
noncomputable def answersHierarchical (embed : String → List ℝ)
    (isHeading : List Char → Bool) (essay : String) (queries : List String) :
    Except AppError (List String) :=
  if trimChars essay.toList = [] then .error (.validation "EmptyEssay")
  else if queries = [] then .error (.validation "EmptyQueries")
  else
    forEachQuery
      (hierAnswerOne embed
        ((segmentEssay isHeading essay).filter (fun s => !s.sentences.isEmpty)))
      queries

/-! ## Basic facts about the embedded operations -/

theorem dotVal_nil_left (b : List ℝ) : dotVal [] b = 0 := rfl

theorem dotVal_cons (x y : ℝ) (xs ys : List ℝ) :
    dotVal (x :: xs) (y :: ys) = x * y + dotVal xs ys := by
  unfold dotVal
  simp

theorem sumSq_nil : sumSq [] = 0 := rfl

theorem sumSq_cons (x : ℝ) (xs : List ℝ) : sumSq (x :: xs) = x * x + sumSq xs := by
  unfold sumSq
  simp

theorem sumSq_nonneg (v : List ℝ) : 0 ≤ sumSq v := by
  refine List.sum_nonneg ?_
  intro x hx
  rcases List.mem_map.mp hx with ⟨y, _, rfl⟩
  exact mul_self_nonneg y

theorem magnitude_nonneg (v : List ℝ) : 0 ≤ magnitude v :=
  Real.sqrt_nonneg _

theorem magnitude_eq_zero_iff (v : List ℝ) : magnitude v = 0 ↔ sumSq v = 0 := by
  unfold magnitude
  rw [Real.sqrt_eq_zero']
  constructor
  · intro h
    exact le_antisymm h (sumSq_nonneg v)
  · intro h
    exact le_of_eq h

theorem dot_product_ok {a b : List ℝ} (h : a.length = b.length) :
    dot_product a b = .ok (dotVal a b) := by
  unfold dot_product dotVal
  simp [h]

theorem cosine_similarity_ok {se other : SentenceEmbedding}
    (hlen : se.embedding.length = other.embedding.length)
    (ha : magnitude se.embedding ≠ 0) (hb : magnitude other.embedding ≠ 0) :
    cosine_similarity se other = .ok (cosVal se.embedding other.embedding) := by
  unfold cosine_similarity cosVal
  rw [dot_product_ok hlen]
  simp [ha, hb]

theorem magnitude_single {x : ℝ} (hx : 0 ≤ x) : magnitude [x] = x := by
  unfold magnitude sumSq
  simp [Real.sqrt_mul_self hx]

theorem dotVal_self (v : List ℝ) : dotVal v v = sumSq v := by
  unfold dotVal sumSq
  induction v with
  | nil => rfl
  | cons x xs ih => simp [ih]

theorem dotVal_comm (a b : List ℝ) : dotVal a b = dotVal b a := by
  unfold dotVal
  induction a generalizing b with
  | nil => simp
  | cons x xs ih =>
    cases b with
    | nil => simp
    | cons y ys => simp [ih ys, mul_comm]

theorem cosVal_self {v : List ℝ} (h : magnitude v ≠ 0) : cosVal v v = 1 := by
  unfold cosVal
  rw [dotVal_self]
  unfold magnitude
  rw [Real.mul_self_sqrt (sumSq_nonneg v)]
  exact div_self (fun hz => h ((magnitude_eq_zero_iff v).mpr hz))

/-! ## Claim C1 -/

/-- C1, as stated, is false: on an empty candidate list `most_similar` does
not raise any error; this counterexample shows it returns the sentinel pair
`(-1, -1.0)` at the concrete query embedding `[1]`. -/
theorem mostSimilar_empty_counterexample :
    most_similar ⟨"q", [(1 : ℝ)]⟩ [] = .ok (-1, -1) := rfl

/-- C1 (amended): for every query, `most_similar` applied to an empty
candidate list returns the sentinel `(-1, -1.0)` (the initial values of
`most_similar_index` and `highest_similarity`) instead of failing. -/
theorem mostSimilar_empty_returns_sentinel (se : SentenceEmbedding) :
    most_similar se [] = .ok (-1, -1) := rfl

/-! ## Claim C4 -/

/-- C4: given equal dimensions, `cosine_similarity` fails with the
zero-magnitude `std::runtime_error` exactly when one of the two vectors has
zero magnitude, and on two nonzero-magnitude vectors it returns the cosine
value (so it never fails there, and never silently returns a value in the
degenerate case). -/
theorem cosineSimilarity_degenerate_iff (se other : SentenceEmbedding)
    (hlen : se.embedding.length = other.embedding.length) :
    (cosine_similarity se other
        = .error (.runtimeError "Cannot calculate cosine similarity with zero magnitude vector.")
      ↔ (magnitude se.embedding = 0 ∨ magnitude other.embedding = 0))
    ∧ (magnitude se.embedding ≠ 0 → magnitude other.embedding ≠ 0 →
        cosine_similarity se other = .ok (cosVal se.embedding other.embedding)) := by
  constructor
  · unfold cosine_similarity
    rw [dot_product_ok hlen]
    by_cases h : magnitude se.embedding = 0 ∨ magnitude other.embedding = 0
    · simp [h]
    · simp [h]
  · intro ha hb
    exact cosine_similarity_ok hlen ha hb

/-- Witness for C4 at the concrete pair `[0]`, `[0]` (both of zero
magnitude): the degenerate error is raised there. -/
theorem cosineSimilarity_degenerate_iff_witness :
    cosine_similarity ⟨"a", [(0 : ℝ)]⟩ ⟨"b", [(0 : ℝ)]⟩
      = .error (.runtimeError "Cannot calculate cosine similarity with zero magnitude vector.") := by
  have h := cosineSimilarity_degenerate_iff ⟨"a", [(0 : ℝ)]⟩ ⟨"b", [(0 : ℝ)]⟩ rfl
  refine h.1.mpr (Or.inl ?_)
  exact magnitude_single le_rfl

/-! ## Claim C6 -/

/-- C6: for every vector of nonzero magnitude, the cosine similarity of the
vector with itself is exactly `1` (exact arithmetic in place of floats). -/
theorem cosineSimilarity_self_eq_one (v : SentenceEmbedding)
    (h : magnitude v.embedding ≠ 0) :
    cosine_similarity v v = .ok 1 := by
  rw [cosine_similarity_ok rfl h h, cosVal_self h]

/-- Witness for C6 at the concrete vector `[1]`. -/
theorem cosineSimilarity_self_eq_one_witness :
    cosine_similarity ⟨"v", [(1 : ℝ)]⟩ ⟨"v", [(1 : ℝ)]⟩ = .ok 1 := by
  refine cosineSimilarity_self_eq_one ⟨"v", [(1 : ℝ)]⟩ ?_
  rw [magnitude_single (by norm_num : (0 : ℝ) ≤ 1)]
  norm_num

/-! ## Claim C7 -/

/-- C7: for every pair of vectors of equal dimension and nonzero magnitudes,
cosine similarity is symmetric. -/
theorem cosineSimilarity_symm (a b : SentenceEmbedding)
    (hlen : a.embedding.length = b.embedding.length)
    (ha : magnitude a.embedding ≠ 0) (hb : magnitude b.embedding ≠ 0) :
    cosine_similarity a b = cosine_similarity b a := by
  rw [cosine_similarity_ok hlen ha hb, cosine_similarity_ok hlen.symm hb ha]
  unfold cosVal
  rw [dotVal_comm, mul_comm]

/-- Witness for C7 at the concrete pair `[1]`, `[2]`. -/
theorem cosineSimilarity_symm_witness :
    cosine_similarity ⟨"a", [(1 : ℝ)]⟩ ⟨"b", [(2 : ℝ)]⟩
      = cosine_similarity ⟨"b", [(2 : ℝ)]⟩ ⟨"a", [(1 : ℝ)]⟩ := by
  refine cosineSimilarity_symm _ _ rfl ?_ ?_
  · rw [magnitude_single (by norm_num : (0 : ℝ) ≤ 1)]
    norm_num
  · rw [magnitude_single (by norm_num : (0 : ℝ) ≤ 2)]
    norm_num

/-! ## Claim C5 -/

/-- The cross-term bound used in the inductive step of Cauchy-Schwarz. -/
theorem cs_step (x y d A B : ℝ) (hA : 0 ≤ A) (hB : 0 ≤ B) (hd : d ^ 2 ≤ A * B) :
    2 * (x * y) * d ≤ x ^ 2 * B + y ^ 2 * A := by
  have hS : 0 ≤ x ^ 2 * B + y ^ 2 * A := by positivity
  have h1 : (2 * (x * y) * d) ^ 2 ≤ (x ^ 2 * B + y ^ 2 * A) ^ 2 := by
    nlinarith [sq_nonneg (x ^ 2 * B - y ^ 2 * A),
      mul_le_mul_of_nonneg_left hd (by positivity : (0 : ℝ) ≤ 4 * x ^ 2 * y ^ 2)]
  calc 2 * (x * y) * d ≤ |2 * (x * y) * d| := le_abs_self _
    _ = Real.sqrt ((2 * (x * y) * d) ^ 2) := (Real.sqrt_sq_eq_abs _).symm
    _ ≤ Real.sqrt ((x ^ 2 * B + y ^ 2 * A) ^ 2) := Real.sqrt_le_sqrt h1
    _ = |x ^ 2 * B + y ^ 2 * A| := Real.sqrt_sq_eq_abs _
    _ = x ^ 2 * B + y ^ 2 * A := abs_of_nonneg hS

/-- Cauchy-Schwarz for the list dot product (exact arithmetic). -/
theorem dotVal_sq_le (a : List ℝ) : ∀ b : List ℝ, dotVal a b ^ 2 ≤ sumSq a * sumSq b := by
  induction a with
  | nil =>
    intro b
    simp [dotVal_nil_left, sumSq_nil]
  | cons x xs ih =>
    intro b
    cases b with
    | nil =>
      have : dotVal (x :: xs) [] = 0 := by unfold dotVal; simp
      rw [this, sumSq_nil]
      simp
    | cons y ys =>
      have hA := sumSq_nonneg xs
      have hB := sumSq_nonneg ys
      have ih2 := ih ys
      have hkey := cs_step x y (dotVal xs ys) (sumSq xs) (sumSq ys) hA hB ih2
      rw [dotVal_cons, sumSq_cons, sumSq_cons]
      nlinarith [hkey, ih2]

/-- The absolute value of the dot product is at most the product of the
magnitudes. -/
theorem abs_dotVal_le (a b : List ℝ) : |dotVal a b| ≤ magnitude a * magnitude b := by
  rw [← Real.sqrt_sq_eq_abs]
  unfold magnitude
  rw [← Real.sqrt_mul (sumSq_nonneg a)]
  exact Real.sqrt_le_sqrt (dotVal_sq_le a b)

/-- C5: for every pair of vectors of equal dimension and nonzero magnitudes,
the value returned by `cosine_similarity` lies in the closed interval
`[-1, 1]`. -/
theorem cosineSimilarity_bounded (a b : SentenceEmbedding)
    (hlen : a.embedding.length = b.embedding.length)
    (ha : magnitude a.embedding ≠ 0) (hb : magnitude b.embedding ≠ 0)
    (r : ℝ) (hr : cosine_similarity a b = .ok r) : -1 ≤ r ∧ r ≤ 1 := by
  rw [cosine_similarity_ok hlen ha hb] at hr
  have hr' : r = cosVal a.embedding b.embedding := by
    cases hr
    rfl
  have hma : 0 < magnitude a.embedding :=
    lt_of_le_of_ne (magnitude_nonneg _) (Ne.symm ha)
  have hmb : 0 < magnitude b.embedding :=
    lt_of_le_of_ne (magnitude_nonneg _) (Ne.symm hb)
  have habs : |r| ≤ 1 := by
    rw [hr']
    unfold cosVal
    rw [abs_div, abs_of_pos (mul_pos hma hmb)]
    exact (div_le_one (mul_pos hma hmb)).mpr (abs_dotVal_le _ _)
  exact abs_le.mp habs

/-- Witness for C5 at the concrete pair `[1]`, `[1]`, whose cosine
similarity is `1`. -/
theorem cosineSimilarity_bounded_witness :
    -1 ≤ (1 : ℝ) ∧ (1 : ℝ) ≤ 1 := by
  have h1 : magnitude [(1 : ℝ)] ≠ 0 := by
    rw [magnitude_single (by norm_num : (0 : ℝ) ≤ 1)]
    norm_num
  refine cosineSimilarity_bounded ⟨"a", [(1 : ℝ)]⟩ ⟨"b", [(1 : ℝ)]⟩ rfl h1 h1 1 ?_
  rw [@cosine_similarity_ok ⟨"a", [(1 : ℝ)]⟩ ⟨"b", [(1 : ℝ)]⟩ rfl h1 h1, cosVal_self h1]

/-! ## The most_similar scan -/

/-- When every candidate's cosine similarity succeeds, the effectful scan of
`most_similar` agrees with the pure scan `runBest` over the score list. -/
theorem msLoop_eq_runBest {se : SentenceEmbedding} {es : List SentenceEmbedding}
    {sims : List ℝ}
    (h : List.Forall₂ (fun e s => cosine_similarity se e = .ok s) es sims) :
    ∀ (i : Nat) (idx : Int) (best : ℝ),
      msLoop se es i idx best = .ok (runBest sims i idx best) := by
  induction h with
  | nil =>
    intro i idx best
    rfl
  | @cons e s es' sims' he _ ih =>
    intro i idx best
    simp only [msLoop, runBest, he]
    by_cases hbs : best < s
    · simp only [if_pos hbs]
      exact ih (i + 1) (Int.ofNat i) s
    · simp only [if_neg hbs]
      exact ih (i + 1) idx best

/-- The second component returned by the scan is the running maximum of the
initial value and all scores. -/
theorem runBest_snd (sims : List ℝ) :
    ∀ (i : Nat) (idx : Int) (best : ℝ),
      (runBest sims i idx best).2 = sims.foldl max best := by
  induction sims with
  | nil =>
    intro i idx best
    rfl
  | cons s ss ih =>
    intro i idx best
    by_cases hbs : best < s
    · simp only [runBest, if_pos hbs, List.foldl_cons, max_eq_right hbs.le]
      exact ih (i + 1) (Int.ofNat i) s
    · simp only [runBest, if_neg hbs, List.foldl_cons, max_eq_left (not_lt.mp hbs)]
      exact ih (i + 1) idx best

theorem le_foldl_max_init (l : List ℝ) : ∀ b : ℝ, b ≤ l.foldl max b := by
  induction l with
  | nil =>
    intro b
    exact le_refl b
  | cons x xs ih =>
    intro b
    exact le_trans (le_max_left b x) (ih (max b x))

theorem le_foldl_max_of_mem {s : ℝ} {l : List ℝ} (h : s ∈ l) :
    ∀ b : ℝ, s ≤ l.foldl max b := by
  induction l with
  | nil => cases h
  | cons x xs ih =>
    intro b
    rcases List.mem_cons.mp h with rfl | hx
    · exact le_trans (le_max_right b s) (le_foldl_max_init xs (max b s))
    · exact ih hx (max b x)

/-- If no score strictly beats the running best, the scan keeps the carried
pair unchanged. -/
theorem runBest_noupdate {sims : List ℝ} (h : ∀ s ∈ sims, s ≤ best) :
    ∀ (i : Nat) (idx : Int), runBest sims i idx best = (idx, best) := by
  induction sims with
  | nil =>
    intro i idx
    rfl
  | cons s ss ih =>
    intro i idx
    have hs : ¬ best < s := not_lt.mpr (h s (List.mem_cons_self s ss))
    simp only [runBest, if_neg hs]
    exact ih (fun t ht => h t (List.mem_cons_of_mem s ht)) (i + 1) idx

/-- If some score strictly beats the running best, the scan returns the
offset position of the first score attaining the final maximum, together
with that score. -/
theorem runBest_argmax :
    ∀ (sims : List ℝ) (i : Nat) (idx : Int) (best : ℝ),
      (∃ s ∈ sims, best < s) →
      ∃ (j : Nat) (hj : j < sims.length),
        runBest sims i idx best = (Int.ofNat (i + j), sims.get ⟨j, hj⟩) ∧
        best < sims.get ⟨j, hj⟩ ∧
        ∀ (k : Nat) (hk : k < j), sims.get ⟨k, Nat.lt_trans hk hj⟩ < sims.get ⟨j, hj⟩ := by
  intro sims
  induction sims with
  | nil =>
    intro i idx best h
    rcases h with ⟨s, hs, _⟩
    cases hs
  | cons s ss ih =>
    intro i idx best h
    by_cases hbs : best < s
    · by_cases hex : ∃ u ∈ ss, s < u
      · obtain ⟨j, hj, heq, hlt, hfirst⟩ := ih (i + 1) (Int.ofNat i) s hex
        refine ⟨j + 1, Nat.succ_lt_succ hj, ?_, lt_trans hbs hlt, ?_⟩
        · simp only [runBest, if_pos hbs]
          rw [heq]
          have hnat : i + 1 + j = i + (j + 1) := by omega
          rw [hnat]
          rfl
        · intro k hk
          cases k with
          | zero => exact hlt
          | succ n => exact hfirst n (Nat.lt_of_succ_lt_succ hk)
      · push_neg at hex
        refine ⟨0, Nat.succ_pos _, ?_, hbs, ?_⟩
        · simp only [runBest, if_pos hbs]
          rw [runBest_noupdate hex (i + 1) (Int.ofNat i)]
          simp
        · intro k hk
          exact absurd hk (Nat.not_lt_zero k)
    · have hex : ∃ u ∈ ss, best < u := by
        rcases h with ⟨t, ht, hbt⟩
        rcases List.mem_cons.mp ht with rfl | htt
        · exact absurd hbt hbs
        · exact ⟨t, htt, hbt⟩
      obtain ⟨j, hj, heq, hlt, hfirst⟩ := ih (i + 1) idx best hex
      refine ⟨j + 1, Nat.succ_lt_succ hj, ?_, hlt, ?_⟩
      · simp only [runBest, if_neg hbs]
        rw [heq]
        have hnat : i + 1 + j = i + (j + 1) := by omega
        rw [hnat]
        rfl
      · intro k hk
        cases k with
        | zero => exact lt_of_le_of_lt (not_lt.mp hbs) hlt
        | succ n => exact hfirst n (Nat.lt_of_succ_lt_succ hk)

/-- Pointwise relation between a list and its image under a map. -/
theorem forall₂_map_self {α β : Type _} (f : α → β) (R : α → β → Prop) :
    ∀ l : List α, (∀ e ∈ l, R e (f e)) → List.Forall₂ R l (l.map f) := by
  intro l
  induction l with
  | nil =>
    intro _
    exact List.Forall₂.nil
  | cons x xs ih =>
    intro h
    exact List.Forall₂.cons (h x (List.mem_cons_self x xs))
      (ih (fun e he => h e (List.mem_cons_of_mem x he)))

theorem get_map_helper {α β : Type _} (f : α → β) :
    ∀ (l : List α) (j : Nat) (hj : j < (l.map f).length) (hj2 : j < l.length),
      (l.map f).get ⟨j, hj⟩ = f (l.get ⟨j, hj2⟩) := by
  intro l
  induction l with
  | nil =>
    intro j hj hj2
    exact absurd hj2 (Nat.not_lt_zero j)
  | cons x xs ih =>
    intro j hj hj2
    cases j with
    | zero => rfl
    | succ n => exact ih n (Nat.lt_of_succ_lt_succ hj) (Nat.lt_of_succ_lt_succ hj2)

/-! ## Claim C2 -/

/-- C2 (amended): for a non-empty candidate list whose vectors all have the
query's dimension and nonzero magnitude (query included), and at least one
candidate whose cosine similarity exceeds the initial sentinel `-1.0`,
`most_similar` returns the maximum cosine similarity together with the index
of the first candidate attaining it (strict greater-than scan in input
order). Without the last hypothesis the statement is false: when every
candidate scores exactly `-1`, the sentinel pair `(-1, -1.0)` is returned. -/
theorem mostSimilar_first_argmax (se : SentenceEmbedding)
    (embs : List SentenceEmbedding)
    (hne : embs ≠ [])
    (hdim : ∀ e ∈ embs, e.embedding.length = se.embedding.length)
    (hq : magnitude se.embedding ≠ 0)
    (hnz : ∀ e ∈ embs, magnitude e.embedding ≠ 0)
    (hgt : ∃ e ∈ embs, -1 < cosVal se.embedding e.embedding) :
    ∃ (j : Nat) (hj : j < embs.length),
      most_similar se embs
        = .ok (Int.ofNat j, cosVal se.embedding ((embs.get ⟨j, hj⟩).embedding)) ∧
      (∀ (k : Nat) (hk : k < embs.length),
        cosVal se.embedding ((embs.get ⟨k, hk⟩).embedding)
          ≤ cosVal se.embedding ((embs.get ⟨j, hj⟩).embedding)) ∧
      (∀ (k : Nat) (hk : k < j),
        cosVal se.embedding ((embs.get ⟨k, Nat.lt_trans hk hj⟩).embedding)
          < cosVal se.embedding ((embs.get ⟨j, hj⟩).embedding)) := by
  have hne2 := hne
  set f : SentenceEmbedding → ℝ := fun e => cosVal se.embedding e.embedding with hf
  have hforall : List.Forall₂ (fun e s => cosine_similarity se e = .ok s) embs (embs.map f) :=
    forall₂_map_self f _ embs (fun e he => cosine_similarity_ok ((hdim e he).symm) hq (hnz e he))
  have hms : most_similar se embs = .ok (runBest (embs.map f) 0 (-1) (-1)) :=
    msLoop_eq_runBest hforall 0 (-1) (-1)
  have hex : ∃ s ∈ embs.map f, (-1 : ℝ) < s := by
    rcases hgt with ⟨e, he, hce⟩
    exact ⟨f e, List.mem_map.mpr ⟨e, he, rfl⟩, hce⟩
  obtain ⟨j, hj, heq, _, hfirst⟩ := runBest_argmax (embs.map f) 0 (-1) (-1) hex
  have hjlen : j < embs.length := by simpa using hj
  have hgetj : (embs.map f).get ⟨j, hj⟩ = f (embs.get ⟨j, hjlen⟩) :=
    get_map_helper f embs j hj hjlen
  have hsnd := runBest_snd (embs.map f) 0 (-1) (-1)
  rw [heq] at hsnd
  simp only [Prod.snd] at hsnd
  refine ⟨j, hjlen, ?_, ?_, ?_⟩
  · rw [hms, heq]
    rw [Nat.zero_add] at heq ⊢
    rw [hgetj]
  · intro k hk
    have hmem : f (embs.get ⟨k, hk⟩) ∈ embs.map f :=
      List.mem_map.mpr ⟨embs.get ⟨k, hk⟩, List.get_mem embs k hk, rfl⟩
    calc f (embs.get ⟨k, hk⟩)
        ≤ (embs.map f).foldl max (-1) := le_foldl_max_of_mem hmem (-1)
      _ = (embs.map f).get ⟨j, hj⟩ := hsnd.symm
      _ = f (embs.get ⟨j, hjlen⟩) := hgetj
  · intro k hk
    have hk2 : k < (embs.map f).length := Nat.lt_trans hk hj
    have := hfirst k hk
    rw [hgetj, get_map_helper f embs k hk2 (Nat.lt_trans hk hjlen)] at this
    exact this

/-- Witness for C2 at the concrete query `[1]` with the single candidate
`[1]`. -/
theorem mostSimilar_first_argmax_witness :
    ∃ (j : Nat) (hj : j < ([⟨"a", [(1 : ℝ)]⟩] : List SentenceEmbedding).length),
      most_similar ⟨"q", [(1 : ℝ)]⟩ [⟨"a", [(1 : ℝ)]⟩]
        = .ok (Int.ofNat j,
            cosVal [(1 : ℝ)] ((([⟨"a", [(1 : ℝ)]⟩] : List SentenceEmbedding).get ⟨j, hj⟩).embedding)) ∧
      (∀ (k : Nat) (hk : k < ([⟨"a", [(1 : ℝ)]⟩] : List SentenceEmbedding).length),
        cosVal [(1 : ℝ)] ((([⟨"a", [(1 : ℝ)]⟩] : List SentenceEmbedding).get ⟨k, hk⟩).embedding)
          ≤ cosVal [(1 : ℝ)] ((([⟨"a", [(1 : ℝ)]⟩] : List SentenceEmbedding).get ⟨j, hj⟩).embedding)) ∧
      (∀ (k : Nat) (hk : k < j),
        cosVal [(1 : ℝ)] ((([⟨"a", [(1 : ℝ)]⟩] : List SentenceEmbedding).get
            ⟨k, Nat.lt_trans hk hj⟩).embedding)
          < cosVal [(1 : ℝ)] ((([⟨"a", [(1 : ℝ)]⟩] : List SentenceEmbedding).get ⟨j, hj⟩).embedding)) := by
  have h1 : magnitude [(1 : ℝ)] ≠ 0 := by
    rw [magnitude_single (by norm_num : (0 : ℝ) ≤ 1)]
    norm_num
  refine mostSimilar_first_argmax ⟨"q", [(1 : ℝ)]⟩ [⟨"a", [(1 : ℝ)]⟩]
    (by simp) ?_ h1 ?_ ?_
  · intro e he
    rw [List.mem_singleton] at he
    rw [he]
  · intro e he
    rw [List.mem_singleton] at he
    rw [he]
    exact h1
  · refine ⟨⟨"a", [(1 : ℝ)]⟩, List.mem_singleton.mpr rfl, ?_⟩
    rw [cosVal_self h1]
    norm_num

/-! ## Claim C3 -/

/-- C3, as stated, is false: for the query `[1, 0]` and the singleton
candidate `[-1, 0]` (equal dimensions, both of magnitude `1`), the cosine
similarity is exactly `-1`, which does not beat the initial
`highest_similarity = -1.0` under the strict comparison, so `most_similar`
returns the sentinel index `-1` instead of the candidate's index `0`. -/
theorem mostSimilar_singleton_counterexample :
    most_similar ⟨"q", [(1 : ℝ), 0]⟩ [⟨"c", [(-1 : ℝ), 0]⟩] = .ok (-1, -1)
      ∧ ((-1 : Int) ≠ 0) := by
  have hm1 : magnitude [(1 : ℝ), 0] = 1 := by
    unfold magnitude sumSq
    norm_num
  have hm2 : magnitude [(-1 : ℝ), 0] = 1 := by
    unfold magnitude sumSq
    norm_num
  have hcos : cosine_similarity ⟨"q", [(1 : ℝ), 0]⟩ ⟨"c", [(-1 : ℝ), 0]⟩ = .ok (-1) := by
    rw [@cosine_similarity_ok ⟨"q", [(1 : ℝ), 0]⟩ ⟨"c", [(-1 : ℝ), 0]⟩ rfl
      (by rw [hm1]; norm_num) (by rw [hm2]; norm_num)]
    unfold cosVal dotVal
    rw [hm1, hm2]
    norm_num
  constructor
  · unfold most_similar
    simp only [msLoop, hcos]
    rw [if_neg (lt_irrefl (-1 : ℝ))]
  · decide

/-- C3 (amended): for a singleton candidate of the query's dimension, both
vectors of nonzero magnitude, `most_similar` returns that candidate (index
`0`) with its cosine score, provided that score exceeds the sentinel `-1.0`;
when the score is exactly `-1` the sentinel pair is returned instead. -/
theorem mostSimilar_singleton_returns_it (se c : SentenceEmbedding)
    (hlen : se.embedding.length = c.embedding.length)
    (hq : magnitude se.embedding ≠ 0) (hc : magnitude c.embedding ≠ 0)
    (hgt : -1 < cosVal se.embedding c.embedding) :
    most_similar se [c] = .ok (0, cosVal se.embedding c.embedding) := by
  unfold most_similar
  simp only [msLoop, cosine_similarity_ok hlen hq hc]
  rw [if_pos hgt]
  rfl

/-- Witness for C3 at the concrete query `[1]` and singleton candidate
`[2]`, whose cosine similarity is `1 > -1`. -/
theorem mostSimilar_singleton_returns_it_witness :
    most_similar ⟨"q", [(1 : ℝ)]⟩ [⟨"c", [(2 : ℝ)]⟩]
      = .ok (0, cosVal [(1 : ℝ)] [(2 : ℝ)]) := by
  have h1 : magnitude [(1 : ℝ)] ≠ 0 := by
    rw [magnitude_single (by norm_num : (0 : ℝ) ≤ 1)]
    norm_num
  have h2 : magnitude [(2 : ℝ)] ≠ 0 := by
    rw [magnitude_single (by norm_num : (0 : ℝ) ≤ 2)]
    norm_num
  have hco : cosVal [(1 : ℝ)] [(2 : ℝ)] = 1 := by
    unfold cosVal dotVal
    rw [magnitude_single (by norm_num : (0 : ℝ) ≤ 1),
      magnitude_single (by norm_num : (0 : ℝ) ≤ 2)]
    norm_num
  refine mostSimilar_singleton_returns_it ⟨"q", [(1 : ℝ)]⟩ ⟨"c", [(2 : ℝ)]⟩ rfl h1 h2 ?_
  rw [hco]
  norm_num

/-! ## Claim C10 -/

/-- The scan fails with the size-mismatch `std::invalid_argument` as soon as
it reaches the first candidate whose dimension differs from the query's,
provided all earlier candidates succeed. -/
theorem msLoop_dim_mismatch (se : SentenceEmbedding) :
    ∀ (es : List SentenceEmbedding) (k : Nat) (hk : k < es.length),
      magnitude se.embedding ≠ 0 →
      (es.get ⟨k, hk⟩).embedding.length ≠ se.embedding.length →
      (∀ (j : Nat) (hj : j < k),
        (es.get ⟨j, Nat.lt_trans hj hk⟩).embedding.length = se.embedding.length ∧
        magnitude (es.get ⟨j, Nat.lt_trans hj hk⟩).embedding ≠ 0) →
      ∀ (i : Nat) (idx : Int) (best : ℝ),
        msLoop se es i idx best
          = .error (.invalidArgument "Vectors must be of the same size for dot product.") := by
  intro es
  induction es with
  | nil =>
    intro k hk
    exact absurd hk (Nat.not_lt_zero k)
  | cons e es' ih =>
    intro k hk hq hbad hgood i idx best
    cases k with
    | zero =>
      have hne : se.embedding.length ≠ e.embedding.length := fun hsym => hbad hsym.symm
      have herr : cosine_similarity se e
          = .error (.invalidArgument "Vectors must be of the same size for dot product.") := by
        unfold cosine_similarity dot_product
        rw [if_pos hne]
      simp only [msLoop, herr]
    | succ n =>
      have hhead := hgood 0 (Nat.succ_pos n)
      have hcos : cosine_similarity se e = .ok (cosVal se.embedding e.embedding) :=
        cosine_similarity_ok hhead.1.symm hq hhead.2
      simp only [msLoop, hcos]
      by_cases hbs : best < cosVal se.embedding e.embedding
      · rw [if_pos hbs]
        exact ih n (Nat.lt_of_succ_lt_succ hk) hq hbad
          (fun j hj => hgood (j + 1) (Nat.succ_lt_succ hj)) (i + 1) (Int.ofNat i) _
      · rw [if_neg hbs]
        exact ih n (Nat.lt_of_succ_lt_succ hk) hq hbad
          (fun j hj => hgood (j + 1) (Nat.succ_lt_succ hj)) (i + 1) idx best

/-- C10: a dimension mismatch makes `cosine_similarity` fail with the
`std::invalid_argument` of `dot_product` regardless of any zero magnitude
(the dot product is computed before the zero-magnitude check), and
`most_similar` fails the same way on the first candidate whose dimension
differs from the query's. -/
theorem dimensionMismatch_invalidArgument :
    (∀ se other : SentenceEmbedding, se.embedding.length ≠ other.embedding.length →
      cosine_similarity se other
        = .error (.invalidArgument "Vectors must be of the same size for dot product.")) ∧
    (∀ (se : SentenceEmbedding) (embs : List SentenceEmbedding) (k : Nat)
      (hk : k < embs.length),
      magnitude se.embedding ≠ 0 →
      (embs.get ⟨k, hk⟩).embedding.length ≠ se.embedding.length →
      (∀ (j : Nat) (hj : j < k),
        (embs.get ⟨j, Nat.lt_trans hj hk⟩).embedding.length = se.embedding.length ∧
        magnitude (embs.get ⟨j, Nat.lt_trans hj hk⟩).embedding ≠ 0) →
      most_similar se embs
        = .error (.invalidArgument "Vectors must be of the same size for dot product.")) := by
  constructor
  · intro se other h
    unfold cosine_similarity dot_product
    rw [if_pos h]
  · intro se embs k hk hq hbad hgood
    exact msLoop_dim_mismatch se embs k hk hq hbad hgood 0 (-1) (-1)

/-- Witness for C10: a zero-magnitude `[0]` against `[0, 0]` still yields the
size-mismatch error (not the zero-magnitude one), and `most_similar` with
query `[1]` over candidates `[[3], [1, 2]]` fails at the second candidate. -/
theorem dimensionMismatch_invalidArgument_witness :
    cosine_similarity ⟨"a", [(0 : ℝ)]⟩ ⟨"b", [(0 : ℝ), 0]⟩
      = .error (.invalidArgument "Vectors must be of the same size for dot product.")
    ∧ most_similar ⟨"q", [(1 : ℝ)]⟩ [⟨"a", [(3 : ℝ)]⟩, ⟨"b", [(1 : ℝ), 2]⟩]
      = .error (.invalidArgument "Vectors must be of the same size for dot product.") := by
  constructor
  · exact dimensionMismatch_invalidArgument.1 ⟨"a", [(0 : ℝ)]⟩ ⟨"b", [(0 : ℝ), 0]⟩ (by decide)
  · refine dimensionMismatch_invalidArgument.2 ⟨"q", [(1 : ℝ)]⟩
      [⟨"a", [(3 : ℝ)]⟩, ⟨"b", [(1 : ℝ), 2]⟩] 1 (by decide) ?_ (by decide) ?_
    · rw [magnitude_single (by norm_num : (0 : ℝ) ≤ 1)]
      norm_num
    · intro j hj
      have hj0 : j = 0 := Nat.lt_one_iff.mp hj
      subst hj0
      refine ⟨rfl, ?_⟩
      show magnitude [(3 : ℝ)] ≠ 0
      rw [magnitude_single (by norm_num : (0 : ℝ) ≤ 3)]
      norm_num

/-- C2, as stated, is false at an input where the only achievable score is
exactly `-1`: for query `[0, 1]` and the single candidate `[0, -1]` (equal
dimension, nonzero magnitudes), the maximum cosine similarity is attained by
candidate `0`, yet `most_similar` returns index `-1`, because the strict
comparison never fires against the initial `highest_similarity = -1.0`. -/
theorem mostSimilar_argmax_counterexample :
    most_similar ⟨"q", [(0 : ℝ), 1]⟩ [⟨"c", [(0 : ℝ), -1]⟩] = .ok (-1, -1)
      ∧ ((-1 : Int) ≠ 0) := by
  have hm1 : magnitude [(0 : ℝ), 1] = 1 := by
    unfold magnitude sumSq
    norm_num
  have hm2 : magnitude [(0 : ℝ), -1] = 1 := by
    unfold magnitude sumSq
    norm_num
  have hcos : cosine_similarity ⟨"q", [(0 : ℝ), 1]⟩ ⟨"c", [(0 : ℝ), -1]⟩ = .ok (-1) := by
    rw [@cosine_similarity_ok ⟨"q", [(0 : ℝ), 1]⟩ ⟨"c", [(0 : ℝ), -1]⟩ rfl
      (by rw [hm1]; norm_num) (by rw [hm2]; norm_num)]
    unfold cosVal dotVal
    rw [hm1, hm2]
    norm_num
  constructor
  · unfold most_similar
    simp only [msLoop, hcos]
    rw [if_neg (lt_irrefl (-1 : ℝ))]
  · decide

/-! ## Facts about the spec-modelled pipeline -/

/-- The index returned by the seeded scan stays below the given bound. -/
theorem msSpecLoop_idx_lt {q : List ℝ} {n : Nat} :
    ∀ (cs : List (List ℝ)) (i idx : Nat) (best : ℝ) (j : Nat) (r : ℝ),
      idx < n → i + cs.length ≤ n →
      msSpecLoop q cs i idx best = .ok (j, r) → j < n := by
  intro cs
  induction cs with
  | nil =>
    intro i idx best j r hidx _ h
    cases h
    exact hidx
  | cons c cs' ih =>
    intro i idx best j r hidx hlen h
    cases hcs : cosineSimilaritySpec q c with
    | error e =>
      simp only [msSpecLoop, hcs] at h
      cases h
    | ok s =>
      simp only [msSpecLoop, hcs] at h
      by_cases hbs : best < s
      · rw [if_pos hbs] at h
        refine ih (i + 1) i s j r ?_ ?_ h
        · simp at hlen
          omega
        · simp at hlen ⊢
          omega
      · rw [if_neg hbs] at h
        refine ih (i + 1) idx best j r hidx ?_ h
        simp at hlen ⊢
        omega

/-- The index returned by `mostSimilarSpec` is a valid index into the
candidate list. -/
theorem mostSimilarSpec_idx_lt {q : List ℝ} {cands : List (List ℝ)} {j : Nat} {r : ℝ}
    (h : mostSimilarSpec q cands = .ok (j, r)) : j < cands.length := by
  cases cands with
  | nil => cases h
  | cons c cs =>
    cases hcs : cosineSimilaritySpec q c with
    | error e =>
      simp only [mostSimilarSpec, hcs] at h
      cases h
    | ok s =>
      simp only [mostSimilarSpec, hcs] at h
      refine msSpecLoop_idx_lt cs 1 0 s j r (Nat.succ_pos _) ?_ h
      simp
      omega

/-- Whatever `selectFromPool` returns came from the pool. -/
theorem selectFromPool_mem {embed : String → List ℝ} {qv : List ℝ}
    {pool : List String} {a : String}
    (h : selectFromPool embed qv pool = .ok a) : a ∈ pool := by
  unfold selectFromPool at h
  cases hms : mostSimilarSpec qv (pool.map embed) with
  | error e => rw [hms] at h; cases h
  | ok p =>
    rw [hms] at h
    obtain ⟨j, r⟩ := p
    cases hg : pool.get? j with
    | none =>
      simp only [hg] at h
      cases h
    | some s =>
      simp only [hg] at h
      cases h
      exact List.get?_mem hg

/-- Every answer delivered by the batch runner comes from a successful
per-query selection. -/
theorem forEachQuery_mem {f : String → Except AppError String} :
    ∀ {qs as : List String}, forEachQuery f qs = .ok as →
      ∀ a ∈ as, ∃ q ∈ qs, f q = .ok a := by
  intro qs
  induction qs with
  | nil =>
    intro as h a ha
    cases h
    cases ha
  | cons q qs' ih =>
    intro as h a ha
    cases hf : f q with
    | error e =>
      simp only [forEachQuery, hf] at h
      cases h
    | ok b =>
      cases hrest : forEachQuery f qs' with
      | error e =>
        simp only [forEachQuery, hf, hrest] at h
        cases h
      | ok bs =>
        simp only [forEachQuery, hf, hrest] at h
        cases h
        rcases List.mem_cons.mp ha with rfl | hmem
        · exact ⟨q, List.mem_cons_self q qs', hf⟩
        · obtain ⟨q2, hq2, hfq2⟩ := ih hrest a hmem
          exact ⟨q2, List.mem_cons_of_mem q hq2, hfq2⟩

/-- A successful hierarchical answer lies in the sentences of one of the
given sections. -/
theorem hierAnswerOne_mem {embed : String → List ℝ} {secs : List EssaySection}
    {q a : String} (h : hierAnswerOne embed secs q = .ok a) :
    ∃ sec ∈ secs, a ∈ sec.sentences := by
  unfold hierAnswerOne at h
  cases hms : mostSimilarSpec (embed q) (secs.map (fun s => embed s.heading)) with
  | error e =>
    rw [hms] at h
    cases h
  | ok p =>
    rw [hms] at h
    obtain ⟨j, r⟩ := p
    cases hg : secs.get? j with
    | none =>
      simp only [hg] at h
      cases h
    | some sec =>
      simp only [hg] at h
      exact ⟨sec, List.get?_mem hg, selectFromPool_mem h⟩

/-! ## Claim C8 -/

/-- C8: for every essay and every query batch, each answer produced by
either retrieval strategy (exhaustive or hierarchical) is the text of a
sentence belonging to some section of the segmented essay — never a heading
(headings are excluded from both candidate pools by construction) and never
fabricated text. -/
theorem answers_contained_in_sections (embed : String → List ℝ)
    (isHeading : List Char → Bool) (essay : String) (queries : List String) :
    (∀ outs, answersExhaustive embed isHeading essay queries = .ok outs →
      ∀ a ∈ outs, ∃ sec ∈ segmentEssay isHeading essay, a ∈ sec.sentences) ∧
    (∀ outs, answersHierarchical embed isHeading essay queries = .ok outs →
      ∀ a ∈ outs, ∃ sec ∈ segmentEssay isHeading essay, a ∈ sec.sentences) := by
  constructor
  · intro outs h a ha
    unfold answersExhaustive at h
    split at h
    · cases h
    · split at h
      · cases h
      · obtain ⟨q, _, hq⟩ := forEachQuery_mem h a ha
        have hpool := selectFromPool_mem hq
        rcases List.mem_flatten.mp hpool with ⟨l, hl, hal⟩
        rcases List.mem_map.mp hl with ⟨sec, hsec, rfl⟩
        exact ⟨sec, hsec, hal⟩
  · intro outs h a ha
    unfold answersHierarchical at h
    split at h
    · cases h
    · split at h
      · cases h
      · obtain ⟨q, _, hq⟩ := forEachQuery_mem h a ha
        obtain ⟨sec, hsec, hmem⟩ := hierAnswerOne_mem hq
        exact ⟨sec, List.mem_of_mem_filter hsec, hmem⟩

/-! ## Claim C9 -/

/-- C9: for every request whose essay is empty after trimming, both
strategies fail with ValidationError EmptyEssay, for every encoder and every
heading heuristic (so before any segmentation or embedding work can
matter), and no answers are returned. -/
theorem emptyEssay_validation (essay : String) (queries : List String)
    (h : trimChars essay.toList = []) :
    ∀ (embed : String → List ℝ) (isHeading : List Char → Bool),
      answersExhaustive embed isHeading essay queries
        = .error (.validation "EmptyEssay") ∧
      answersHierarchical embed isHeading essay queries
        = .error (.validation "EmptyEssay") := by
  intro embed isHeading
  constructor
  · unfold answersExhaustive
    rw [if_pos h]
  · unfold answersHierarchical
    rw [if_pos h]

/-- Witness for C9 at the concrete empty essay. -/
theorem emptyEssay_validation_witness :
    answersExhaustive (fun _ => [(1 : ℝ)]) (fun _ => false) "" ["q"]
        = .error (.validation "EmptyEssay") ∧
    answersHierarchical (fun _ => [(1 : ℝ)]) (fun _ => false) "" ["q"]
        = .error (.validation "EmptyEssay") :=
  emptyEssay_validation "" ["q"] rfl (fun _ => [(1 : ℝ)]) (fun _ => false)

/-- Witness for C8: concrete runs of both strategies with a constant
encoder. The exhaustive strategy on the essay with heading block T and body
sentence Green trees answers with that sentence; the hierarchical strategy
likewise on a second essay; both answers lie in a section of the segmented
essay. -/
theorem answers_contained_in_sections_witness :
    (∃ sec ∈ segmentEssay (fun b => b == ['T']) "T\nGreen trees.",
      "Green trees" ∈ sec.sentences) ∧
    (∃ sec ∈ segmentEssay (fun b => b == ['T']) "T\nTrees are tall.",
      "Trees are tall" ∈ sec.sentences) := by
  have h1 : magnitude [(1 : ℝ)] ≠ 0 := by
    rw [magnitude_single (by norm_num : (0 : ℝ) ≤ 1)]
    norm_num
  have hcs : cosineSimilaritySpec [(1 : ℝ)] [(1 : ℝ)] = .ok 1 := by
    unfold cosineSimilaritySpec
    rw [if_neg (by push_neg; exact ⟨h1, h1⟩), cosVal_self h1]
  have hms : mostSimilarSpec [(1 : ℝ)] [[(1 : ℝ)]] = .ok (0, 1) := by
    simp only [mostSimilarSpec, hcs, msSpecLoop]
  have hsel : ∀ s : String, selectFromPool (fun _ => [(1 : ℝ)]) [(1 : ℝ)] [s] = .ok s := by
    intro s
    unfold selectFromPool
    simp only [List.map_cons, List.map_nil, hms]
    rfl
  constructor
  · refine (answers_contained_in_sections (fun _ => [(1 : ℝ)]) (fun b => b == ['T'])
      "T\nGreen trees." ["q"]).1 ["Green trees"] ?_ "Green trees"
      (List.mem_singleton.mpr rfl)
    unfold answersExhaustive
    rw [if_neg (by decide), if_neg (by decide)]
    show forEachQuery
        (fun _ => selectFromPool (fun _ => [(1 : ℝ)]) [(1 : ℝ)] ["Green trees"]) ["q"]
      = .ok ["Green trees"]
    simp only [forEachQuery, hsel]
  · refine (answers_contained_in_sections (fun _ => [(1 : ℝ)]) (fun b => b == ['T'])
      "T\nTrees are tall." ["q"]).2 ["Trees are tall"] ?_ "Trees are tall"
      (List.mem_singleton.mpr rfl)
    unfold answersHierarchical
    rw [if_neg (by decide), if_neg (by decide)]
    show forEachQuery
        (hierAnswerOne (fun _ => [(1 : ℝ)]) [⟨"T", ["Trees are tall"]⟩]) ["q"]
      = .ok ["Trees are tall"]
    have hone : hierAnswerOne (fun _ => [(1 : ℝ)]) [⟨"T", ["Trees are tall"]⟩] "q"
        = .ok "Trees are tall" := by
      unfold hierAnswerOne
      simp only [List.map_cons, List.map_nil, hms]
      show selectFromPool (fun _ => [(1 : ℝ)]) [(1 : ℝ)] ["Trees are tall"]
        = .ok "Trees are tall"
      exact hsel "Trees are tall"
    simp only [forEachQuery, hone]
